import Mathlib

/-!
Verification of the SupplyKai chatbot's tabular query layer.

The repository holds two near-duplicate single-file demo applications:
`app.py` (SupplyKai Assistant v.05) and `app.py.py` (an earlier revision).
Both load a spreadsheet into an in-memory table and answer a fixed
catalogue of lookup and aggregation questions against it.  This file is a
shallow embedding of that query layer: column-name canonicalization, the
month-to-column period resolver, and each query function of both versions,
together with theorems settling the specification's claims about them.

Modelling conventions:
  * a table cell is either missing (pandas NaN), a string, or an integer;
    quantity columns are modelled over integers (the claims do not touch
    fractional quantities);
  * Python library primitives are modelled directly: whitespace
    stripping over the common whitespace characters, ASCII lower-casing
    (exactly what the source's regex pipeline needs), string formatting
    of a nonnegative integer, pandas to_numeric/fillna coercion;
  * pandas timestamps are modelled as integers, and the date parser maps
    ISO-formatted strings to such an integer (an unparseable string is
    NaT, modelled as none);
  * returned message dataframes are modelled as a structured message
    outcome, and a Python KeyError or TypeError raised by a query
    function is an explicit error value of an Except type.

All recursive helper functions are structurally recursive so that every
concrete-input witness evaluates inside the kernel.
-/

/-! ## Character-level helpers -/

/-- Whitespace test used by Python's str.strip: models the common
whitespace characters (space, tab, newline, carriage return, vertical
tab, form feed, and the non-breaking space, all of which Python strips). -/
def pySpace (c : Char) : Bool :=
  decide (c.toNat = 32 ∨ c.toNat = 9 ∨ c.toNat = 10 ∨ c.toNat = 13 ∨
    c.toNat = 11 ∨ c.toNat = 12 ∨ c.toNat = 160)

/-- The character class of the regex [a-z0-9] in canonicalize_columns. -/
def isAlnumL (c : Char) : Bool :=
  decide ((97 ≤ c.toNat ∧ c.toNat ≤ 122) ∨ (48 ≤ c.toNat ∧ c.toNat ≤ 57))

/-- Underscore test used by strip("_"). -/
def isUnd (c : Char) : Bool :=
  decide (c.toNat = 95)

/-- Python str.strip on a character list: drop whitespace from both ends. -/
def pyStripL (l : List Char) : List Char :=
  (l.dropWhile pySpace).rdropWhile pySpace

/-- Python str.strip on a string. -/
def pyStrip (s : String) : String :=
  (pyStripL s.toList).asString

/-- Python str.lower on a string (ASCII letters; `Char.toLower` is
exactly the per-character lowering the source's pipeline relies on). -/
def lowerStr (s : String) : String :=
  (s.toList.map Char.toLower).asString

/-! ## Decimal rendering of a nonnegative integer (Python str(int) /
f-string formatting), written with structural recursion on a fuel
argument so it evaluates in the kernel. -/

/-- The decimal digit character for n < 10. -/
def digitChar10 (n : Nat) : Char :=
  Char.ofNat (48 + n)

/-- Decimal digits of n, most significant first; fuel-structural. -/
def natDigitsAux : Nat → Nat → List Char
  | 0, _ => []
  | fuel + 1, n =>
    if n < 10 then [digitChar10 n]
    else natDigitsAux fuel (n / 10) ++ [digitChar10 (n % 10)]

/-- Decimal digits of n, most significant first. -/
def natDigits (n : Nat) : List Char :=
  natDigitsAux (n + 1) n

/-- Python str of a nonnegative integer. -/
def natStr (n : Nat) : String :=
  (natDigits n).asString

/-! ## The period resolver of app.py (month_column_map, normalized
column names) and the inline map of app.py.py (raw column names). -/

/-- The fixed month-to-column mapping of app.py (normalized keys). -/
def month_column_map : List (String × String) :=
  [("April 2026", "su26_m1"),
   ("May 2026", "su26_m2"),
   ("June 2026", "su26_m3"),
   ("July 2026", "fal26_m1"),
   ("August 2026", "fal26_m2"),
   ("September 2026", "fal26_m3")]

/-- The fixed month-to-column mapping inlined in app.py.py (raw
spreadsheet column names, no normalization in that revision). -/
def month_column_map_v0 : List (String × String) :=
  [("April 2026", "SU26 M1"),
   ("May 2026", "SU26 M2"),
   ("June 2026", "SU26 M3"),
   ("July 2026", "FAL26 M1"),
   ("August 2026", "FAL26 M2"),
   ("September 2026", "FAL26 M3")]

/-- The period resolver: app.py builds the key f-string "month year" and
looks it up in month_column_map (dict.get, exact string match). -/
def resolve (month : String) (year : Nat) : Option String :=
  List.lookup (month ++ " " ++ natStr year) month_column_map

/-! ## Tabular data model -/

/-- A table cell: missing (pandas NaN), a string, or an integer. -/
inductive Cell where
  | null : Cell
  | str : String → Cell
  | num : Int → Cell
deriving DecidableEq, Repr

/-- A row: an association list from normalized column key to cell.
A key absent from the list is a missing value. -/
def TRow : Type := List (String × Cell)

instance : DecidableEq TRow := by
  unfold TRow
  infer_instance

/-- An in-memory table: the column keys and the rows. -/
structure Dataset where
  cols : List String
  rows : List TRow
deriving DecidableEq

/-- Read one cell of a row by column key (missing key is NaN). -/
def getCell (r : TRow) (c : String) : Cell :=
  match r.find? (fun p => p.1 == c) with
  | some p => p.2
  | none => Cell.null

/-- Write one cell of a row by column key (models assignment into a
pandas frame column for the rows of a local copy). -/
def setCell (r : TRow) (c : String) (v : Cell) : TRow :=
  r.map (fun p => if p.1 == c then (p.1, v) else p)

/-- pandas astype(str) on one cell: NaN prints as "nan", an integer
prints in decimal, a string is itself. -/
def cellToStr : Cell → String
  | Cell.null => "nan"
  | Cell.str s => s
  | Cell.num n => if n < 0 then "-" ++ natStr n.natAbs else natStr n.natAbs

/-- Parse a nonempty all-digit character list as a natural number. -/
def parseNatL (l : List Char) : Option Nat :=
  if l ≠ [] ∧ l.all (fun c => decide (48 ≤ c.toNat ∧ c.toNat ≤ 57)) then
    some (l.foldl (fun a c => a * 10 + (c.toNat - 48)) 0)
  else none

/-- pandas to_numeric(errors="coerce") on one cell (integer-valued
cells; an unparseable string or NaN coerces to NaN). -/
def toNumCell : Cell → Option Int
  | Cell.null => none
  | Cell.str s =>
    match pyStripL s.toList with
    | '-' :: rest => (parseNatL rest).map (fun n => -(n : Int))
    | l => (parseNatL l).map (fun n => (n : Int))
  | Cell.num n => some n

/-- The numeric value of a coerced cell (used after fillna(0)). -/
def cellNumOrZero (c : Cell) : Int :=
  (toNumCell c).getD 0

/-- Project a row onto the given column keys, in order. -/
def projectRow (keys : List String) (r : TRow) : TRow :=
  keys.map (fun k => (k, getCell r k))

/-! ## Column normalizer of app.py (canonicalize_columns) -/

/-- The substitution re.sub(r"[^a-z0-9]+", "_", s): every maximal run of
characters outside [a-z0-9] becomes one underscore. -/
def collapseNonAlnum : List Char → List Char
  | [] => []
  | c :: rest =>
    if isAlnumL c then c :: collapseNonAlnum rest
    else '_' :: collapseNonAlnum (rest.dropWhile (fun x => !isAlnumL x))
  termination_by l => l.length
  decreasing_by
    all_goals simp
    exact Nat.lt_succ_of_le ((List.dropWhile_sublist _).length_le)

/-- Python strip("_"): drop underscores from both ends. -/
def stripUnd (l : List Char) : List Char :=
  (l.dropWhile isUnd).rdropWhile isUnd

/-- Replace the non-breaking space by a plain space. -/
def nbspFix (c : Char) : Char :=
  if c.toNat = 160 then ' ' else c

/-- One header through canonicalize_columns of app.py: strip surrounding
whitespace, non-breaking space to space, lower-case, collapse non-
alphanumeric runs to single underscores, strip leading and trailing
underscores. -/
def canonicalize_header (s : String) : String :=
  (stripUnd (collapseNonAlnum
    (((pyStripL s.toList).map nbspFix).map Char.toLower))).asString

/-- canonicalize_columns renames every column of a frame. -/
def canonicalize_columns (cols : List String) : List String :=
  cols.map canonicalize_header

/-! ## Result and error types -/

deriving instance DecidableEq for Except

/-- A raised Python error escaping a query function. -/
inductive PyErr where
  | keyError : String → PyErr
  | typeError : PyErr
deriving DecidableEq, Repr

/-- The structured outcome of an app.py query function: the message
dataframes (both the column-not-found and the no-data/all-clear kinds)
are message outcomes, a point-lookup total is a scalar outcome, the
rest are tabular outcomes. -/
inductive FnResult where
  | message : String → FnResult
  | collections : List String → FnResult
  | total : String → String → Int → FnResult
  | table : List String → List TRow → FnResult
deriving DecidableEq

/-- The outcome of app.py.py's forecast_lookup: a warning string, or the
success message carrying the computed total. -/
inductive FnResultV0 where
  | warning : String → FnResultV0
  | answer : String → String → Int → FnResultV0
deriving DecidableEq

/-! ## app.py query functions (forecast side) -/

/-- The row-side comparison key of app.py's collection filter:
astype(str).str.lower().str.strip(). -/
def rowKey (c : Cell) : String :=
  pyStrip (lowerStr (cellToStr c))

/-- The query-side comparison key: collection.lower().strip(). -/
def queryKey (q : String) : String :=
  pyStrip (lowerStr q)

/-- The rows of the forecast table whose style_collection matches the
requested collection under app.py's comparison. -/
def matchingRows (fc : Dataset) (collection : String) : List TRow :=
  fc.rows.filter (fun r => rowKey (getCell r "style_collection") == queryKey collection)

/-- The optional color equality filter shared by forecast_lookup and
top_3_styles: applied only when a color argument is given (nonempty,
Python truthiness) and the color column exists. -/
def colorFilter (fc : Dataset) (color : Option String) (l : List TRow) : List TRow :=
  match color with
  | none => l
  | some cq =>
    if cq ≠ "" ∧ "color" ∈ fc.cols then
      l.filter (fun r => rowKey (getCell r "color") == queryKey cq)
    else l

/-- app.py resolves the period and then requires the mapped column to be
present: month_column_map.get(key) followed by the col-in-columns test. -/
def resolvedCol (fc : Dataset) (month : String) (year : Nat) : Option String :=
  match resolve month year with
  | some c => if c ∈ fc.cols then some c else none
  | none => none

/-- Sum of the period column over rows, after to_numeric coercion and
fillna(0): pd.to_numeric(filtered[col], errors="coerce").fillna(0).sum(). -/
def sumPeriodCol (l : List TRow) (col : String) : Int :=
  (l.map (fun r => cellNumOrZero (getCell r col))).sum

/-- app.py forecast_lookup. -/
def forecast_lookup (fc : Dataset) (collection month : String) (year : Nat)
    (color : Option String) : FnResult :=
  if "style_collection" ∈ fc.cols then
    match resolvedCol fc month year with
    | none => FnResult.message "No forecast column for this month and year."
    | some col =>
      let filtered := colorFilter fc color (matchingRows fc collection)
      if filtered.isEmpty then
        FnResult.message "No data for this collection in this month."
      else
        FnResult.total collection (month ++ " " ++ natStr year)
          (sumPeriodCol filtered col)
  else FnResult.message "style_collection column not found."

/-- Descending stable sort of rows by an integer key (sort_values with
ascending=False). -/
def sortRowsDesc (key : TRow → Int) (l : List TRow) : List TRow :=
  List.insertionSort (fun a b => key b ≤ key a) l

/-- app.py top_3_styles.  The required-column loop deliberately exempts
"color", yet the final projection selects the color column
unconditionally, so a forecast table without a color column raises
KeyError once it reaches the projection. -/
def top_3_styles (fc : Dataset) (collection month : String) (year : Nat)
    (color : Option String) : Except PyErr FnResult :=
  let style_col := if "style_number" ∈ fc.cols then "style_number" else "style"
  let desc_col := if "description" ∈ fc.cols then "description" else "product_description"
  if "style_collection" ∉ fc.cols then
    Except.ok (FnResult.message "Required column style_collection not found in forecast file.")
  else if style_col ∉ fc.cols then
    Except.ok (FnResult.message "Required column style not found in forecast file.")
  else if desc_col ∉ fc.cols then
    Except.ok (FnResult.message "Required column description not found in forecast file.")
  else
    match resolvedCol fc month year with
    | none => Except.ok (FnResult.message "No forecast column for this month and year.")
    | some col =>
      let filtered := colorFilter fc color (matchingRows fc collection)
      if filtered.isEmpty then
        Except.ok (FnResult.message "No data for this collection in this month.")
      else
        let coerced := filtered.map (fun r =>
          setCell r col (Cell.num (cellNumOrZero (getCell r col))))
        let top := (sortRowsDesc (fun r => cellNumOrZero (getCell r col)) coerced).take 3
        if "color" ∈ fc.cols then
          Except.ok (FnResult.table ["style_number", "description", "color", col]
            (top.map (fun r =>
              [("style_number", getCell r style_col),
               ("description", getCell r desc_col),
               ("color", getCell r "color"),
               (col, getCell r col)])))
        else Except.error (PyErr.keyError "color")

/-! ## app.py list_available_collections and color_performance_for_style -/

/-- First-occurrence deduplication (pandas Series.unique keeps the first
occurrence of each value, in order of appearance). -/
def uniqueFirst : List String → List String
  | [] => []
  | x :: r => x :: (uniqueFirst r).filter (fun y => decide (y ≠ x))

/-- Lexicographic order on character lists by code point (the order
Python's sorted() uses on strings). -/
def lexLe : List Char → List Char → Bool
  | [], _ => true
  | _ :: _, [] => false
  | a :: as, b :: bs =>
    if a.toNat < b.toNat then true
    else if b.toNat < a.toNat then false
    else lexLe as bs

/-- String comparison by code points. -/
def strLe (a b : String) : Bool :=
  lexLe a.toList b.toList

/-- Insert a string into a sorted list (ascending). -/
def insertSorted (a : String) : List String → List String
  | [] => [a]
  | b :: r => if strLe a b then a :: b :: r else b :: insertSorted a r

/-- Python sorted() on a list of strings: ascending insertion sort. -/
def sortStr : List String → List String
  | [] => []
  | x :: r => insertSorted x (sortStr r)

/-- The collection list computed by list_available_collections:
dropna, astype(str), strip, unique, then ascending sort. -/
def collections_list (fc : Dataset) : List String :=
  sortStr
    (uniqueFirst
      (((fc.rows.map (fun r => getCell r "style_collection")).filter
          (fun c => decide (c ≠ Cell.null))).map
        (fun c => pyStrip (cellToStr c))))

/-- app.py list_available_collections. -/
def list_available_collections (fc : Dataset) : FnResult :=
  if "style_collection" ∈ fc.cols then
    FnResult.collections (collections_list fc)
  else
    FnResult.message "style_collection column not found in forecast file."

/-- The per-style filter of color_performance_for_style:
astype(str).str.strip() == str(style_number).strip(), with no lowering. -/
def styleRows (fc : Dataset) (style_number : String) : List TRow :=
  let style_col := if "style_number" ∈ fc.cols then "style_number" else "style"
  fc.rows.filter (fun r => pyStrip (cellToStr (getCell r style_col)) == pyStrip style_number)

/-- The distinct color keys of a row list in ascending order of their
string form (pandas groupby sorts group keys and drops NaN keys). -/
def colorKeys (l : List TRow) : List String :=
  sortStr
    (uniqueFirst
      (((l.map (fun r => getCell r "color")).filter
          (fun c => decide (c ≠ Cell.null))).map cellToStr))

/-- app.py color_performance_for_style: per-color sums of every present
month column plus a grand total, descending by total.  The style column
access and the groupby("color") raise KeyError when absent (this
function, unlike top_3_styles, never guards them). -/
def color_performance_for_style (fc : Dataset) (style_number : String) :
    Except PyErr FnResult :=
  let style_col := if "style_number" ∈ fc.cols then "style_number" else "style"
  let cols := (month_column_map.map Prod.snd).filter (fun c => decide (c ∈ fc.cols))
  if cols.isEmpty then
    Except.ok (FnResult.message "No monthly forecast columns found in forecast file.")
  else if style_col ∉ fc.cols then
    Except.error (PyErr.keyError style_col)
  else
    let filtered := styleRows fc style_number
    if filtered.isEmpty then
      Except.ok (FnResult.message "No data for this style.")
    else if "color" ∈ fc.cols then
      let groups := (colorKeys filtered).map (fun k =>
        let grp := filtered.filter (fun r => cellToStr (getCell r "color") == k)
        let sums := cols.map (fun c => sumPeriodCol grp c)
        (k, sums, sums.sum))
      let sorted := List.insertionSort
        (fun a b => b.2.2 ≤ a.2.2) groups
      Except.ok (FnResult.table ("color" :: cols ++ ["total_units"])
        (sorted.map (fun g =>
          ("color", Cell.str g.1) ::
            (cols.zip g.2.1).map (fun p => (p.1, Cell.num p.2)) ++
              [("total_units", Cell.num g.2.2)])))
    else Except.error (PyErr.keyError "color")

/-! ## app.py master-table functions -/

/-- app.py pending_lab_dips. -/
def pending_lab_dips (master : Dataset) : FnResult :=
  if "lab_dip_status" ∈ master.cols then
    let pending := master.rows.filter
      (fun r => rowKey (getCell r "lab_dip_status") == "pending")
    if pending.isEmpty then
      FnResult.message "All lab dips are approved."
    else
      let cols := (["lab_dip_status", "style", "product_description", "fabric",
        "style_vendor"]).filter (fun c => decide (c ∈ master.cols))
      FnResult.table cols (pending.map (projectRow cols))
  else FnResult.message "lab_dip_status column not found in master file."

/-- Split a character list at dashes. -/
def splitDashes : List Char → List (List Char)
  | [] => [[]]
  | c :: r =>
    if c = '-' then [] :: splitDashes r
    else
      match splitDashes r with
      | g :: gs => (c :: g) :: gs
      | [] => [[c]]

/-- Modelled pandas to_datetime(errors="coerce") on a date string,
restricted to ISO year-month-day text: the result is an integer day
code that is strictly monotone in (year, month, day); any other text
(for example "TBD") is NaT, modelled as none. -/
def parseDate (s : String) : Option Int :=
  match splitDashes (pyStripL s.toList) with
  | [y, m, d] =>
    match parseNatL y, parseNatL m, parseNatL d with
    | some yn, some mn, some dn =>
      if 1 ≤ mn ∧ mn ≤ 12 ∧ 1 ≤ dn ∧ dn ≤ 31 then
        some ((yn : Int) * 372 + (mn : Int) * 31 + (dn : Int))
      else none
    | _, _, _ => none
  | _ => none

/-- to_datetime over one cell: a numeric cell is already a timestamp, a
string is parsed, NaN stays NaT. -/
def parseDateCell : Cell → Option Int
  | Cell.null => none
  | Cell.num n => some n
  | Cell.str s => parseDate s

/-- The risk rows of raw_material_expiry_risks, exactly as computed by
the source: first the mask dates < today + 30 days (a NaT date compares
false), then the mask dates.notna(). -/
def expiry_risk_rows (master : Dataset) (today : Int) : List TRow :=
  ((master.rows.filter (fun r =>
      match parseDateCell (getCell r "rm_shelf_life_end") with
      | some d => decide (d < today + 30)
      | none => false)).filter
    (fun r => (parseDateCell (getCell r "rm_shelf_life_end")).isSome))

/-- app.py raw_material_expiry_risks (pd.Timestamp.today() is passed in
as the integer timestamp today). -/
def raw_material_expiry_risks (master : Dataset) (today : Int) : FnResult :=
  if "rm_shelf_life_end" ∈ master.cols then
    let risks := expiry_risk_rows master today
    if risks.isEmpty then
      FnResult.message "No raw materials expiring within 30 days."
    else
      let cols := (["style", "product_description", "category",
        "rm_shelf_life_end", "compliance_flag", "notes"]).filter
        (fun c => decide (c ∈ master.cols))
      FnResult.table cols (risks.map (projectRow cols))
  else FnResult.message "rm_shelf_life_end column not found in master file."

/-- The first maximal digit run of a character list, if any (the regex
extract r"(\d+)" of sustainable_fabrics). -/
def firstDigitRun : List Char → Option (List Char)
  | [] => none
  | c :: r =>
    if decide (48 ≤ c.toNat ∧ c.toNat ≤ 57) then
      some (c :: r.takeWhile (fun x => decide (48 ≤ x.toNat ∧ x.toNat ≤ 57)))
    else firstDigitRun r

/-- str.extract(r"(\d+)") then astype(float), on the string form of a
cell: the first run of digits as a number, none when no digit occurs. -/
def extractFirstNat (s : String) : Option Nat :=
  (firstDigitRun s.toList).bind parseNatL

/-- The rows selected by sustainable_fabrics: the extracted percentage
with NaN filled by 0 compared against the threshold
(pct.fillna(0) >= float(min_percent)). -/
def sustainable_rows (master : Dataset) (min_percent : Int) : List TRow :=
  master.rows.filter (fun r =>
    decide (min_percent ≤
      (((extractFirstNat (cellToStr (getCell r "sustainability_flag"))).map
          (fun n => (n : Int))).getD 0)))

/-- app.py sustainable_fabrics (default threshold 50). -/
def sustainable_fabrics (master : Dataset) (min_percent : Int) : FnResult :=
  if "sustainability_flag" ∈ master.cols then
    let sustainable := sustainable_rows master min_percent
    if sustainable.isEmpty then
      FnResult.message "No fabrics above the threshold of recycled content."
    else
      let cols := (["style", "product_description", "fabric",
        "sustainability_flag", "style_vendor"]).filter
        (fun c => decide (c ∈ master.cols))
      FnResult.table cols (sustainable.map (projectRow cols))
  else FnResult.message "sustainability_flag column not found in master file."

/-! ## app.py.py (earlier revision) forecast_lookup -/

/-- True when pandas can sum the cell with skipna (a number, or NaN
which is skipped); a string cell in the summed column makes the raw
.sum() of app.py.py fail, modelled as a TypeError. -/
def summableCell : Cell → Bool
  | Cell.num _ => true
  | Cell.null => true
  | Cell.str _ => false

/-- Raw pandas .sum() over a column: NaN cells are skipped. -/
def sumRawCol (l : List TRow) (col : String) : Int :=
  (l.map (fun r => match getCell r col with
    | Cell.num n => n
    | _ => 0)).sum

/-- app.py.py forecast_lookup.  The month map is checked first; the
collection filter lowers and strips the row values but only lowers the
query argument; there is no empty-result check, so zero matching rows
sum to 0; a missing "Style Collection" or period column raises
KeyError. -/
def forecast_lookup_v0 (df : Dataset) (collection month : String) (year : Nat) :
    Except PyErr FnResultV0 :=
  match List.lookup (month ++ " " ++ natStr year) month_column_map_v0 with
  | none => Except.ok (FnResultV0.warning "Sorry, no forecast data available for this month.")
  | some target =>
    if "Style Collection" ∈ df.cols then
      let filtered := df.rows.filter (fun r =>
        lowerStr (pyStrip (cellToStr (getCell r "Style Collection"))) == lowerStr collection)
      if target ∈ df.cols then
        if filtered.all (fun r => summableCell (getCell r target)) then
          Except.ok (FnResultV0.answer collection (month ++ " " ++ natStr year)
            (sumRawCol filtered target))
        else Except.error PyErr.typeError
      else Except.error (PyErr.keyError target)
    else Except.error (PyErr.keyError "Style Collection")

/-! ## Period-over-period percentage change

Modelled from the spec: the delta/variance query function of the
catalogue (spec section 4.4 item 5) has no implementation inside src/
(it lives in other revisions of this repository); the computation is
modelled from the spec's words: per-period sums in calendar order, the
first period's change is zero, and a percentage change from a zero base
is defined as zero change. -/

/-- Modelled from the spec: successive percentage changes against the
running previous value; a zero previous value yields zero change. -/
def pct_go (prev : Int) : List Int → List Rat
  | [] => []
  | cur :: r =>
    (if prev = 0 then 0 else (((cur : Rat) - (prev : Rat)) * 100) / (prev : Rat))
      :: pct_go cur r

/-- Modelled from the spec: the percentage-change sequence of a list of
per-period sums; the first period's change is defined as zero. -/
def pct_changes : List Int → List Rat
  | [] => []
  | x :: rest => 0 :: pct_go x rest

/-! ## The chat-dispatch step of app.py (claim C9's frame) -/

/-- The two datasets of one session, loaded once at ingestion. -/
structure AppState where
  df_forecast : Dataset
  df_master : Dataset
deriving DecidableEq

/-- One classifier-chosen function call, as dispatched by the match
block of the chat handler (today stands for pd.Timestamp.today() at the
moment raw_material_expiry_risks runs). -/
inductive QueryCall where
  | listCollections : QueryCall
  | lookup : String → String → Nat → Option String → QueryCall
  | topStyles : String → String → Nat → Option String → QueryCall
  | colorPerf : String → QueryCall
  | pendingDips : QueryCall
  | expiryRisks : Int → QueryCall
  | sustainable : Option Int → QueryCall

/-- The dispatch step: run the chosen query function against the loaded
datasets and hand back the result together with the session state.  No
branch writes to the state (every query function is read-only). -/
def dispatch (c : QueryCall) (s : AppState) : Except PyErr FnResult × AppState :=
  match c with
  | QueryCall.listCollections => (Except.ok (list_available_collections s.df_forecast), s)
  | QueryCall.lookup coll m y col => (Except.ok (forecast_lookup s.df_forecast coll m y col), s)
  | QueryCall.topStyles coll m y col => (top_3_styles s.df_forecast coll m y col, s)
  | QueryCall.colorPerf sty => (color_performance_for_style s.df_forecast sty, s)
  | QueryCall.pendingDips => (Except.ok (pending_lab_dips s.df_master), s)
  | QueryCall.expiryRisks today => (Except.ok (raw_material_expiry_risks s.df_master today), s)
  | QueryCall.sustainable mp => (Except.ok (sustainable_fabrics s.df_master (mp.getD 50)), s)

/-! ## Claim-side (spec-worded) definitions, for refinement comparison -/

/-- The spec's point-lookup sum: the quantities of exactly those rows
whose collection name equals the given collection under whitespace-
trimmed, case-insensitive comparison, summed with unparseable
quantities as zero.  Written from the spec's words (trim, then case-
fold) to compare against the code's computation. -/
def claimC5_sum (fc : Dataset) (collCol collection col : String) : Int :=
  ((fc.rows.filter (fun r =>
      lowerStr (pyStrip (cellToStr (getCell r collCol))) ==
        lowerStr (pyStrip collection))).map
    (fun r => cellNumOrZero (getCell r col))).sum

/-- A Bool observer: is the outcome a message dataframe? -/
def isMessageR : FnResult → Bool
  | FnResult.message _ => true
  | _ => false

/-- No two adjacent underscores (the shape invariant of the output of
the regex collapse, used to prove normalizer idempotence). -/
def noAdjUnd (l : List Char) : Prop :=
  List.Chain' (fun a b => ¬(a = '_' ∧ b = '_')) l

/-! ## Concrete datasets used by witnesses and counterexamples -/

/-- A master row whose sustainability attribute has no parseable
numeric value. -/
def rowNA : TRow :=
  [("style", Cell.str "S1"), ("product_description", Cell.str "Desc"),
   ("fabric", Cell.str "Cotton"), ("sustainability_flag", Cell.str "N/A"),
   ("style_vendor", Cell.str "V1")]

/-- A one-row master dataset whose single row is unparseable for the
sustainability threshold filter. -/
def mC1 : Dataset :=
  ⟨["style", "product_description", "fabric", "sustainability_flag", "style_vendor"],
   [rowNA]⟩

/-- A forecast table with no color column and one matching row: the
failing input of claim C2. -/
def fcC2 : Dataset :=
  ⟨["style_collection", "style_number", "description", "su26_m1"],
   [[("style_collection", Cell.str "A"), ("style_number", Cell.str "S1"),
     ("description", Cell.str "D"), ("su26_m1", Cell.num 5)]]⟩

/-- An app.py.py-shape forecast table with one row in collection B. -/
def dfC3 : Dataset :=
  ⟨["Style Collection", "SU26 M1"],
   [[("Style Collection", Cell.str "B"), ("SU26 M1", Cell.num 100)]]⟩

/-- The spec's sum-consistency example table in app.py.py shape:
rows (A, 10), (A, 5), (B, 100) in the April 2026 column. -/
def dfC5 : Dataset :=
  ⟨["Style Collection", "SU26 M1"],
   [[("Style Collection", Cell.str "A"), ("SU26 M1", Cell.num 10)],
    [("Style Collection", Cell.str "A"), ("SU26 M1", Cell.num 5)],
    [("Style Collection", Cell.str "B"), ("SU26 M1", Cell.num 100)]]⟩

/-- The same example table in app.py's normalized shape. -/
def fcW5 : Dataset :=
  ⟨["style_collection", "su26_m1"],
   [[("style_collection", Cell.str "A"), ("su26_m1", Cell.num 10)],
    [("style_collection", Cell.str "A"), ("su26_m1", Cell.num 5)],
    [("style_collection", Cell.str "B"), ("su26_m1", Cell.num 100)]]⟩

/-- A forecast table with repeated, untrimmed and null collection
names, for the collection-listing witness. -/
def fcW10 : Dataset :=
  ⟨["style_collection", "su26_m1"],
   [[("style_collection", Cell.str "beta "), ("su26_m1", Cell.num 1)],
    [("style_collection", Cell.str "alpha"), ("su26_m1", Cell.num 2)],
    [("style_collection", Cell.null), ("su26_m1", Cell.num 3)],
    [("style_collection", Cell.str "beta"), ("su26_m1", Cell.num 4)]]⟩

/-- A master table carrying an unparseable shelf-life date, a date
inside the 30-day window, and a date far beyond it. -/
def mW7 : Dataset :=
  ⟨["style", "product_description", "rm_shelf_life_end"],
   [[("style", Cell.str "S1"), ("product_description", Cell.str "near"),
     ("rm_shelf_life_end", Cell.str "2026-01-02")],
    [("style", Cell.str "S2"), ("product_description", Cell.str "tbd"),
     ("rm_shelf_life_end", Cell.str "TBD")],
    [("style", Cell.str "S3"), ("product_description", Cell.str "far"),
     ("rm_shelf_life_end", Cell.str "2099-01-01")]]⟩

/-- The near row of mW7. -/
def rowNear : TRow :=
  [("style", Cell.str "S1"), ("product_description", Cell.str "near"),
   ("rm_shelf_life_end", Cell.str "2026-01-02")]

/-! # Theorems -/

/-! ## C9: every query function is read-only -/

/-- C9: every query function is read-only: after any dispatched call to
list_available_collections, forecast_lookup, top_3_styles,
color_performance_for_style, pending_lab_dips,
raw_material_expiry_risks or sustainable_fabrics, the forecast and
master datasets of the session are unchanged.  In the embedding the
dispatch step threads the session state through every branch, and no
branch writes to it, exactly as no source query function assigns to
df_forecast or df_master (each one only reads the frames; the local
column coercions of top_3_styles and color_performance_for_style write
into fresh boolean-mask copies). -/
theorem claim_C9 : ∀ (c : QueryCall) (s : AppState), (dispatch c s).2 = s := by
  intro c s
  cases c <;> rfl

/-! ## C2: dependent query functions and a missing color column -/

/-- C2: the claim fails on the code.  On a forecast table without a
color column, top_3_styles passes its own required-column loop (which
deliberately exempts "color"), reaches the final projection
top[[style_col, desc_col, color_col, col]], and raises KeyError
instead of returning a typed column-not-found outcome. -/
theorem claim_C2 : top_3_styles fcC2 "A" "April" 2026 none =
    Except.error (PyErr.keyError "color") := by
  decide

/-! ## C1: threshold filter on unparseable sustainability values -/

/-- C1 counterexample: the claim is false as stated.  The sustainability
value "N/A" has no parseable numeric, yet at threshold 0 the row is
included, because the source compares pct.fillna(0) >= min_percent and
the fillna(0) turns the unparseable NaN into 0. -/
theorem claim_C1_counterexample :
    extractFirstNat "N/A" = none ∧
    rowNA ∈ sustainable_rows mC1 0 ∧
    sustainable_fabrics mC1 0 =
      FnResult.table ["style", "product_description", "fabric",
        "sustainability_flag", "style_vendor"] [rowNA] := by
  decide

/-- C1 as amended: a row whose sustainability attribute has no
parseable numeric value is treated as value 0 by the threshold filter:
it is excluded at every strictly positive threshold (in particular at
the default 50), but included whenever the threshold is at most 0. -/
theorem claim_C1 (master : Dataset) (t : Int) (r : TRow) (ht : 0 < t)
    (hnone : extractFirstNat (cellToStr (getCell r "sustainability_flag")) = none) :
    r ∉ sustainable_rows master t := by
  intro hmem
  unfold sustainable_rows at hmem
  have h := List.of_mem_filter hmem
  simp [hnone] at h
  omega

/-- C1 witness: the "N/A" row is excluded at the default threshold 50. -/
theorem claim_C1_witness : (0 : Int) < 50 ∧ rowNA ∉ sustainable_rows mC1 50 :=
  ⟨by decide, claim_C1 mC1 50 rowNA (by decide) (by decide)⟩

/-! ## C4: percentage change from a zero base -/

/-- Length of the percentage tail. -/
theorem pct_go_length (l : List Int) : ∀ prev, (pct_go prev l).length = l.length := by
  induction l with
  | nil => intro prev; rfl
  | cons cur r ih => intro prev; simp [pct_go, ih]

/-- A zero running base yields a zero change at the following step. -/
theorem pct_go_getD_zero (l : List Int) :
    ∀ prev j, j < l.length → (prev :: l).getD j 1 = 0 →
      (pct_go prev l).getD j 1 = 0 := by
  induction l with
  | nil => intro prev j hj hz; simp at hj
  | cons cur r ih =>
    intro prev j hj hz
    cases j with
    | zero =>
      simp only [List.getD_cons_zero] at hz
      simp [pct_go, hz]
    | succ j =>
      simp only [List.getD_cons_succ] at hz
      simpa [pct_go] using ih cur j (by simpa using hj) hz

/-- C4: for per-period sums starting from a zero base at step i, the
percentage-change computation is total (same length as the sums, so it
never fails or leaves the step undefined) and reports a defined zero
change for the step after the zero base. -/
theorem claim_C4 (sums : List Int) (i : Nat) (h : i + 1 < sums.length)
    (hz : sums.getD i 1 = 0) :
    (pct_changes sums).length = sums.length ∧
      (pct_changes sums).getD (i + 1) 1 = 0 := by
  match sums with
  | [] => simp at h
  | x :: rest =>
    constructor
    · simp [pct_changes, pct_go_length]
    · simp only [pct_changes, List.getD_cons_succ]
      exact pct_go_getD_zero rest x i (by simpa using h) hz

/-- C4 witness: the spec's example sums [0, 10] give a defined zero
percentage at the step after the zero base. -/
theorem claim_C4_witness :
    (pct_changes [0, 10]).length = ([0, 10] : List Int).length ∧
      (pct_changes [0, 10]).getD 1 1 = 0 :=
  claim_C4 [0, 10] 0 (by decide) (by decide)

/-! ## Helper lemmas about lower-casing and stripping -/

/-- ASCII lowering never turns a character into or out of whitespace. -/
theorem toLower_pySpace (c : Char) : pySpace (Char.toLower c) = pySpace c := by
  have hb : ∀ n < 91, 65 ≤ n → pySpace (Char.ofNat (n + 32)) = false := by decide
  simp only [Char.toLower]
  split
  · rename_i h
    rw [hb c.toNat (by omega) (by omega)]
    simp only [pySpace]
    have : ¬(c.toNat = 32 ∨ c.toNat = 9 ∨ c.toNat = 10 ∨ c.toNat = 13 ∨
        c.toNat = 11 ∨ c.toNat = 12 ∨ c.toNat = 160) := by omega
    simp [this]
  · rfl

/-- Stripping commutes with per-character lowering. -/
theorem pyStripL_map_toLower (l : List Char) :
    pyStripL (l.map Char.toLower) = (pyStripL l).map Char.toLower := by
  have hf : (pySpace ∘ Char.toLower) = pySpace := funext toLower_pySpace
  unfold pyStripL List.rdropWhile
  rw [List.dropWhile_map, hf, ← List.map_reverse, List.dropWhile_map, hf,
    List.map_reverse]

/-- str.lower().strip() equals str.strip().lower() on any string. -/
theorem lower_pyStrip (s : String) : lowerStr (pyStrip s) = pyStrip (lowerStr s) := by
  unfold lowerStr pyStrip
  rw [List.toList_asString, List.toList_asString, pyStripL_map_toLower]

/-- The color filter of an empty row list is empty. -/
theorem colorFilter_nil (fc : Dataset) (color : Option String) :
    colorFilter fc color [] = [] := by
  unfold colorFilter
  cases color with
  | none => rfl
  | some cq => split <;> simp

/-! ## C3: point lookup not-found outcomes -/

/-- C3 counterexample: the claim is false on app.py.py's
forecast_lookup.  With a resolved period and a collection matching zero
rows, that revision returns the numeric total 0 (its success message
carries the sum over the empty selection) rather than a NotFound
outcome. -/
theorem claim_C3_counterexample :
    forecast_lookup_v0 dfC3 "A" "April" 2026 =
      Except.ok (FnResultV0.answer "A" "April 2026" 0) := by
  decide

/-- C3 as amended: app.py's forecast_lookup behaves as the claim
states: whenever the period fails to resolve (unmapped month-year pair
or mapped column absent) or the collection matches zero rows, the
outcome is a message dataframe, never a numeric total.  app.py.py's
revision instead returns total 0 on zero matching rows. -/
theorem claim_C3 (fc : Dataset) (collection month : String) (year : Nat)
    (color : Option String)
    (h : resolvedCol fc month year = none ∨ matchingRows fc collection = []) :
    isMessageR (forecast_lookup fc collection month year color) = true := by
  unfold forecast_lookup
  by_cases hc : "style_collection" ∈ fc.cols
  · rw [if_pos hc]
    cases hr : resolvedCol fc month year with
    | none => rfl
    | some col =>
      rcases h with h | h
      · rw [hr] at h; cases h
      · rw [h, colorFilter_nil]
        rfl
  · rw [if_neg hc]
    rfl

/-- C3 witness: an unmapped period ("January" 2026) yields a message
outcome on a concrete table. -/
theorem claim_C3_witness :
    isMessageR (forecast_lookup fcW5 "A" "January" 2026 none) = true :=
  claim_C3 fcW5 "A" "January" 2026 none (Or.inl (by decide))

/-! ## C5: point lookup sum consistency -/

/-- C5 counterexample: the claim is false on app.py.py's
forecast_lookup.  On the spec's example table, the argument " A"
(surrounding whitespace) should match the two A rows under whitespace-
trimmed case-insensitive comparison and sum to 15, but that revision
lowers the argument without trimming it, matches nothing, and returns
total 0. -/
theorem claim_C5_counterexample :
    forecast_lookup_v0 dfC5 " A" "April" 2026 =
      Except.ok (FnResultV0.answer " A" "April 2026" 0) ∧
    claimC5_sum dfC5 "Style Collection" " A" "SU26 M1" = 15 := by
  constructor
  · decide
  · decide

/-- C5 as amended: app.py's forecast_lookup is sum-consistent exactly
as the claim states: with the collection column present, a resolved
period column, and at least one matching row, the returned total is
the sum of the period-column quantities of precisely the rows whose
collection name equals the argument under whitespace-trimmed,
case-insensitive comparison.  app.py.py's revision only satisfies this
for arguments with no surrounding whitespace. -/
theorem claim_C5 (fc : Dataset) (collection month : String) (year : Nat)
    (col : String)
    (h1 : "style_collection" ∈ fc.cols)
    (h2 : resolvedCol fc month year = some col)
    (h3 : matchingRows fc collection ≠ []) :
    forecast_lookup fc collection month year none =
      FnResult.total collection (month ++ " " ++ natStr year)
        (claimC5_sum fc "style_collection" collection col) := by
  have hm : matchingRows fc collection =
      fc.rows.filter (fun r =>
        lowerStr (pyStrip (cellToStr (getCell r "style_collection"))) ==
          lowerStr (pyStrip collection)) := by
    unfold matchingRows rowKey queryKey
    apply List.filter_congr
    intro r _
    rw [lower_pyStrip, lower_pyStrip]
  have hne : (colorFilter fc none (matchingRows fc collection)).isEmpty = false := by
    unfold colorFilter
    cases hq : matchingRows fc collection with
    | nil => exact absurd hq h3
    | cons a l => rfl
  unfold forecast_lookup
  rw [if_pos h1, h2]
  simp only [hne, Bool.false_eq_true, if_false]
  unfold colorFilter
  unfold sumPeriodCol claimC5_sum
  rw [hm]

/-- C5 witness: on the spec's example table in app.py shape, the lookup
for "A" in April 2026 returns the claim-side sum, which is 15. -/
theorem claim_C5_witness :
    forecast_lookup fcW5 "A" "April" 2026 none =
      FnResult.total "A" "April 2026" (claimC5_sum fcW5 "style_collection" "A" "su26_m1") ∧
    claimC5_sum fcW5 "style_collection" "A" "su26_m1" = 15 :=
  ⟨claim_C5 fcW5 "A" "April" 2026 "su26_m1" (by decide) (by decide) (by decide),
   by decide⟩

/-! ## C7: date-proximity filter -/

/-- C7: with the shelf-life-end column present, the risk selection of
raw_material_expiry_risks holds exactly the rows whose date attribute
parses and lies strictly before today + 30 days.  In particular a row
with an unparseable date (NaT) is excluded — the NaT row already fails
the dates < cutoff mask (NaT comparisons are false), and the notna mask
of the source is redundant — and no input raises. -/
theorem claim_C7 (master : Dataset) (today : Int) (r : TRow)
    (h : "rm_shelf_life_end" ∈ master.cols) :
    r ∈ expiry_risk_rows master today ↔
      (r ∈ master.rows ∧
        ∃ d, parseDateCell (getCell r "rm_shelf_life_end") = some d ∧
          d < today + 30) := by
  unfold expiry_risk_rows
  simp only [List.mem_filter]
  cases hp : parseDateCell (getCell r "rm_shelf_life_end") with
  | none => simp [hp]
  | some d => simp [hp]

/-- C7 witness: in a concrete master table holding a "TBD" date, a
near date and a far date, the near row is selected at a concrete
current date. -/
theorem claim_C7_witness : rowNear ∈ expiry_risk_rows mW7 753700 :=
  (claim_C7 mW7 753700 rowNear (by decide)).mpr
    ⟨by decide, ⟨753705, by decide, by decide⟩⟩

/-! ## C10: the collection listing -/

/-- Membership in an insertion step. -/
theorem mem_insertSorted (a x : String) (l : List String) :
    x ∈ insertSorted a l ↔ x = a ∨ x ∈ l := by
  induction l with
  | nil => simp [insertSorted]
  | cons b r ih =>
    unfold insertSorted
    split
    · simp
    · simp only [List.mem_cons, ih]
      tauto

/-- Sorting keeps membership. -/
theorem mem_sortStr (x : String) (l : List String) :
    x ∈ sortStr l ↔ x ∈ l := by
  induction l with
  | nil => simp [sortStr]
  | cons b r ih =>
    unfold sortStr
    rw [mem_insertSorted]
    simp [ih]

/-- An insertion step keeps distinctness. -/
theorem nodup_insertSorted (a : String) (l : List String)
    (ha : a ∉ l) (hl : l.Nodup) : (insertSorted a l).Nodup := by
  induction l with
  | nil => simp [insertSorted]
  | cons b r ih =>
    rw [List.nodup_cons] at hl
    have hab : a ≠ b := fun he => ha (by simp [he])
    have har : a ∉ r := fun hm => ha (List.mem_cons_of_mem _ hm)
    unfold insertSorted
    split
    · refine List.Pairwise.cons ?_ (List.nodup_cons.mpr ⟨hl.1, hl.2⟩)
      intro y hy hay
      exact ha (hay ▸ hy)
    · refine List.Pairwise.cons ?_ (ih har hl.2)
      intro y hy hby
      rw [mem_insertSorted] at hy
      rcases hy with he | hm
      · exact hab (hby.trans he).symm
      · exact hl.1 (hby ▸ hm)

/-- Sorting keeps distinctness. -/
theorem nodup_sortStr (l : List String) (h : l.Nodup) : (sortStr l).Nodup := by
  induction l with
  | nil => simpa [sortStr] using h
  | cons b r ih =>
    unfold sortStr
    have hb : b ∉ sortStr r := by
      rw [mem_sortStr]
      exact (List.nodup_cons.mp h).1
    exact nodup_insertSorted b (sortStr r) hb (ih (List.nodup_cons.mp h).2)

/-- Head characterization of the lexicographic comparison. -/
theorem lexLe_cons_iff (a b : Char) (as bs : List Char) :
    lexLe (a :: as) (b :: bs) = true ↔
      (a.toNat < b.toNat ∨ (a.toNat = b.toNat ∧ lexLe as bs = true)) := by
  simp only [lexLe]
  split_ifs with h1 h2
  · simp [h1]
  · simp
    omega
  · constructor
    · intro h
      exact Or.inr ⟨by omega, h⟩
    · rintro (h | ⟨he, h⟩)
      · omega
      · exact h

/-- The lexicographic comparison is total. -/
theorem lexLe_total (l₁ l₂ : List Char) :
    lexLe l₁ l₂ = true ∨ lexLe l₂ l₁ = true := by
  induction l₁ generalizing l₂ with
  | nil => exact Or.inl rfl
  | cons a as ih =>
    cases l₂ with
    | nil => exact Or.inr rfl
    | cons b bs =>
      rw [lexLe_cons_iff, lexLe_cons_iff]
      rcases ih bs with h | h
      · by_cases hab : a.toNat < b.toNat
        · exact Or.inl (Or.inl hab)
        · by_cases hba : b.toNat < a.toNat
          · exact Or.inr (Or.inl hba)
          · exact Or.inl (Or.inr ⟨by omega, h⟩)
      · by_cases hab : a.toNat < b.toNat
        · exact Or.inl (Or.inl hab)
        · by_cases hba : b.toNat < a.toNat
          · exact Or.inr (Or.inl hba)
          · exact Or.inr (Or.inr ⟨by omega, h⟩)

/-- The lexicographic comparison is transitive. -/
theorem lexLe_trans (l₁ l₂ l₃ : List Char)
    (h12 : lexLe l₁ l₂ = true) (h23 : lexLe l₂ l₃ = true) :
    lexLe l₁ l₃ = true := by
  induction l₁ generalizing l₂ l₃ with
  | nil => rfl
  | cons a as ih =>
    cases l₂ with
    | nil => simp [lexLe] at h12
    | cons b bs =>
      cases l₃ with
      | nil => simp [lexLe] at h23
      | cons c cs =>
        rw [lexLe_cons_iff] at h12 h23 ⊢
        rcases h12 with h12 | ⟨he12, h12⟩
        · rcases h23 with h23 | ⟨he23, h23⟩
          · exact Or.inl (by omega)
          · exact Or.inl (by omega)
        · rcases h23 with h23 | ⟨he23, h23⟩
          · exact Or.inl (by omega)
          · exact Or.inr ⟨by omega, ih bs cs h12 h23⟩

/-- String comparison is total. -/
theorem strLe_total (a b : String) : strLe a b = true ∨ strLe b a = true :=
  lexLe_total a.toList b.toList

/-- String comparison is transitive. -/
theorem strLe_trans (a b c : String) (hab : strLe a b = true)
    (hbc : strLe b c = true) : strLe a c = true :=
  lexLe_trans a.toList b.toList c.toList hab hbc

/-- Inserting into an ascending list keeps it ascending. -/
theorem pairwise_insertSorted (a : String) (l : List String)
    (h : l.Pairwise (fun x y => strLe x y = true)) :
    (insertSorted a l).Pairwise (fun x y => strLe x y = true) := by
  induction l with
  | nil => simp [insertSorted]
  | cons b r ih =>
    rw [List.pairwise_cons] at h
    unfold insertSorted
    split
    · rename_i hab
      refine List.Pairwise.cons ?_ (List.pairwise_cons.mpr h)
      intro y hy
      rcases List.mem_cons.mp hy with he | hm
      · exact he ▸ hab
      · exact strLe_trans a b y hab (h.1 y hm)
    · rename_i hab
      have hba : strLe b a = true := by
        rcases strLe_total a b with h' | h'
        · exact absurd h' hab
        · exact h'
      refine List.Pairwise.cons ?_ (ih h.2)
      intro y hy
      rw [mem_insertSorted] at hy
      rcases hy with he | hm
      · exact he ▸ hba
      · exact h.1 y hm

/-- The sort produces an ascending list. -/
theorem pairwise_sortStr (l : List String) :
    (sortStr l).Pairwise (fun x y => strLe x y = true) := by
  induction l with
  | nil => simp [sortStr]
  | cons b r ih =>
    unfold sortStr
    exact pairwise_insertSorted b (sortStr r) ih

/-- First-occurrence deduplication keeps membership. -/
theorem mem_uniqueFirst (x : String) (l : List String) :
    x ∈ uniqueFirst l ↔ x ∈ l := by
  induction l with
  | nil => simp [uniqueFirst]
  | cons b r ih =>
    unfold uniqueFirst
    simp only [List.mem_cons, List.mem_filter, ih, decide_eq_true_eq]
    constructor
    · rintro (he | ⟨hm, _⟩)
      · exact Or.inl he
      · exact Or.inr hm
    · rintro (he | hm)
      · exact Or.inl he
      · by_cases hxb : x = b
        · exact Or.inl hxb
        · exact Or.inr ⟨hm, hxb⟩

/-- First-occurrence deduplication yields a duplicate-free list. -/
theorem nodup_uniqueFirst (l : List String) : (uniqueFirst l).Nodup := by
  induction l with
  | nil => simp [uniqueFirst]
  | cons b r ih =>
    unfold uniqueFirst
    refine List.Pairwise.cons ?_ (List.Nodup.filter _ ih)
    intro y hy hby
    exact (decide_eq_true_eq.mp (List.mem_filter.mp hy).2) hby.symm

/-- C10: with the collection column present,
list_available_collections returns the computed collection list, which
is ascending in code-point order, free of duplicates, and holds exactly
the whitespace-trimmed string forms of the non-null collection cells of
the forecast rows. -/
theorem claim_C10 (fc : Dataset) (x : String)
    (h : "style_collection" ∈ fc.cols) :
    list_available_collections fc = FnResult.collections (collections_list fc) ∧
      (collections_list fc).Pairwise (fun a b => strLe a b = true) ∧
      (collections_list fc).Nodup ∧
      (x ∈ collections_list fc ↔
        ∃ r ∈ fc.rows, getCell r "style_collection" ≠ Cell.null ∧
          pyStrip (cellToStr (getCell r "style_collection")) = x) := by
  refine ⟨?_, ?_, ?_, ?_⟩
  · unfold list_available_collections
    rw [if_pos h]
  · exact pairwise_sortStr _
  · exact nodup_sortStr _ (nodup_uniqueFirst _)
  · unfold collections_list
    rw [mem_sortStr, mem_uniqueFirst]
    simp only [List.mem_map, List.mem_filter, decide_eq_true_eq]
    constructor
    · rintro ⟨c, ⟨⟨r, hr, rfl⟩, hnn⟩, rfl⟩
      exact ⟨r, hr, hnn, rfl⟩
    · rintro ⟨r, hr, hnn, rfl⟩
      exact ⟨getCell r "style_collection", ⟨⟨r, hr, rfl⟩, hnn⟩, rfl⟩

/-- C10 witness: on a concrete table with untrimmed, duplicate and null
collection cells, the function returns the computed list. -/
theorem claim_C10_witness :
    ("style_collection" ∈ fcW10.cols) ∧
      list_available_collections fcW10 =
        FnResult.collections (collections_list fcW10) :=
  ⟨by decide, (claim_C10 fcW10 "x" (by decide)).1⟩

/-! ## C6: the period resolver -/

/-- Digit characters have the expected code points. -/
theorem digitChar10_toNat : ∀ n < 10, (digitChar10 n).toNat = 48 + n := by
  decide

/-- Every character of a digit rendering is a decimal digit. -/
theorem natDigitsAux_mem (fuel : Nat) :
    ∀ n c, c ∈ natDigitsAux fuel n → ∃ k < 10, c = digitChar10 k := by
  induction fuel with
  | zero => intro n c hc; simp [natDigitsAux] at hc
  | succ fuel ih =>
    intro n c hc
    unfold natDigitsAux at hc
    split at hc
    · rename_i h
      rw [List.mem_singleton] at hc
      exact ⟨n, h, hc⟩
    · rw [List.mem_append, List.mem_singleton] at hc
      rcases hc with hc | hc
      · exact ih (n / 10) c hc
      · exact ⟨n % 10, Nat.mod_lt _ (by omega), hc⟩

/-- The fuel argument is irrelevant once it exceeds the number. -/
theorem natDigitsAux_congr (f₁ : Nat) :
    ∀ f₂ n, n < f₁ → n < f₂ → natDigitsAux f₁ n = natDigitsAux f₂ n := by
  induction f₁ with
  | zero => intro f₂ n h; omega
  | succ f₁ ih =>
    intro f₂ n h₁ h₂
    cases f₂ with
    | zero => omega
    | succ f₂ =>
      unfold natDigitsAux
      by_cases hn : n < 10
      · simp [hn]
      · have hdiv : n / 10 < n := Nat.div_lt_self (by omega) (by omega)
        simp only [if_neg hn]
        rw [ih f₂ (n / 10) (by omega) (by omega)]

/-- The digit rendering below ten. -/
theorem natDigits_lt (n : Nat) (h : n < 10) : natDigits n = [digitChar10 n] := by
  unfold natDigits natDigitsAux
  simp [h]

/-- The digit rendering from ten up. -/
theorem natDigits_ge (n : Nat) (h : 10 ≤ n) :
    natDigits n = natDigits (n / 10) ++ [digitChar10 (n % 10)] := by
  have hdiv : n / 10 < n := Nat.div_lt_self (by omega) (by omega)
  unfold natDigits
  conv_lhs => rw [natDigitsAux]
  rw [if_neg (by omega)]
  rw [natDigitsAux_congr n (n / 10 + 1) (n / 10) (by omega) (by omega)]

/-- A digit rendering is never empty. -/
theorem natDigits_ne_nil (n : Nat) : natDigits n ≠ [] := by
  by_cases h : n < 10
  · rw [natDigits_lt n h]
    simp
  · rw [natDigits_ge n (by omega)]
    simp

/-- The digit rendering determines the number. -/
theorem natDigits_inj (m : Nat) : ∀ n, natDigits m = natDigits n → m = n := by
  induction m using Nat.strong_induction_on with
  | _ m ih =>
    intro n h
    by_cases hm : m < 10
    · by_cases hn : n < 10
      · rw [natDigits_lt m hm, natDigits_lt n hn] at h
        have := congrArg Char.toNat (List.singleton_injective h)
        rw [digitChar10_toNat m hm, digitChar10_toNat n hn] at this
        omega
      · rw [natDigits_lt m hm, natDigits_ge n (by omega)] at h
        have hl := congrArg List.length h
        have hne := natDigits_ne_nil (n / 10)
        simp at hl
        exact absurd hl hne
    · by_cases hn : n < 10
      · rw [natDigits_ge m (by omega), natDigits_lt n hn] at h
        have hl := congrArg List.length h
        have hne := natDigits_ne_nil (m / 10)
        simp at hl
        exact absurd hl hne
      · rw [natDigits_ge m (by omega), natDigits_ge n (by omega)] at h
        have hp := List.append_inj' h rfl
        have h1 : m / 10 = n / 10 :=
          ih (m / 10) (Nat.div_lt_self (by omega) (by omega)) (n / 10) hp.1
        have h2 := congrArg Char.toNat (List.singleton_injective hp.2)
        rw [digitChar10_toNat (m % 10) (Nat.mod_lt _ (by omega)),
          digitChar10_toNat (n % 10) (Nat.mod_lt _ (by omega))] at h2
        omega

/-- No character of a digit rendering is the space character. -/
theorem natDigits_not_space (n : Nat) : ∀ c ∈ natDigits n, c.toNat ≠ 32 := by
  intro c hc
  obtain ⟨k, hk, rfl⟩ := natDigitsAux_mem (n + 1) n c hc
  rw [digitChar10_toNat k hk]
  omega

/-- A list with one space splits uniquely around a space-free tail. -/
theorem split_space (l₁ : List Char) :
    ∀ (l₂ r₁ r₂ : List Char), (∀ c ∈ r₁, c.toNat ≠ 32) →
      (∀ c ∈ r₂, c.toNat ≠ 32) →
      l₁ ++ ' ' :: r₁ = l₂ ++ ' ' :: r₂ → l₁ = l₂ ∧ r₁ = r₂ := by
  induction l₁ with
  | nil =>
    intro l₂ r₁ r₂ h₁ h₂ h
    cases l₂ with
    | nil =>
      simp only [List.nil_append, List.cons.injEq] at h
      exact ⟨rfl, h.2⟩
    | cons x l₂' =>
      simp only [List.nil_append, List.cons_append, List.cons.injEq] at h
      exfalso
      have : ' ' ∈ r₁ := by
        rw [h.2]
        exact List.mem_append_right _ (List.mem_cons_self _ _)
      exact h₁ ' ' this (by decide)
  | cons x l₁' ih =>
    intro l₂ r₁ r₂ h₁ h₂ h
    cases l₂ with
    | nil =>
      simp only [List.nil_append, List.cons_append, List.cons.injEq] at h
      exfalso
      have : ' ' ∈ r₂ := by
        rw [← h.2]
        exact List.mem_append_right _ (List.mem_cons_self _ _)
      exact h₂ ' ' this (by decide)
    | cons y l₂' =>
      simp only [List.cons_append, List.cons.injEq] at h
      obtain ⟨he, ht⟩ := h
      obtain ⟨hl, hr⟩ := ih l₂' r₁ r₂ h₁ h₂ ht
      exact ⟨by rw [he, hl], hr⟩

/-- The f-string key "month year" determines the month and the year. -/
theorem formatKey_inj (m₁ : String) (y₁ : Nat) (m₂ : String) (y₂ : Nat)
    (h : m₁ ++ " " ++ natStr y₁ = m₂ ++ " " ++ natStr y₂) :
    m₁ = m₂ ∧ y₁ = y₂ := by
  have hd : (m₁.data ++ [' ']) ++ natDigits y₁ = (m₂.data ++ [' ']) ++ natDigits y₂ := by
    have hq := congrArg String.data h
    simp only [String.data_append] at hq
    exact hq
  rw [List.append_assoc, List.append_assoc, List.singleton_append,
    List.singleton_append] at hd
  obtain ⟨hm, hy⟩ := split_space m₁.data m₂.data (natDigits y₁) (natDigits y₂)
    (natDigits_not_space y₁) (natDigits_not_space y₂) hd
  constructor
  · calc m₁ = m₁.data.asString := (String.asString_toList m₁).symm
      _ = m₂.data.asString := by rw [hm]
      _ = m₂ := String.asString_toList m₂
  · exact natDigits_inj y₁ y₂ hy

/-- A successful association-list lookup exhibits its pair. -/
theorem lookup_mem_pairs (k v : String) (ps : List (String × String))
    (h : List.lookup k ps = some v) : (k, v) ∈ ps := by
  induction ps with
  | nil => simp [List.lookup] at h
  | cons p r ih =>
    obtain ⟨k', v'⟩ := p
    rw [List.lookup] at h
    split at h
    · rename_i hb
      cases h
      rw [List.mem_cons]
      exact Or.inl (by rw [eq_of_beq hb])
    · exact List.mem_cons_of_mem _ (ih h)

/-- C6: the period resolver maps each of the six fixed (month, year)
pairs to its column key, the six keys are pairwise distinct, the
example ("January", 2026) resolves to nothing, and every successful
resolution comes from one of the six fixed pairs exactly (no fuzzy
matching: the dict lookup compares the formatted key by string
equality, and the key format is injective). -/
theorem claim_C6 :
    (resolve "April" 2026 = some "su26_m1" ∧
     resolve "May" 2026 = some "su26_m2" ∧
     resolve "June" 2026 = some "su26_m3" ∧
     resolve "July" 2026 = some "fal26_m1" ∧
     resolve "August" 2026 = some "fal26_m2" ∧
     resolve "September" 2026 = some "fal26_m3") ∧
    resolve "January" 2026 = none ∧
    (["su26_m1", "su26_m2", "su26_m3", "fal26_m1", "fal26_m2",
      "fal26_m3"] : List String).Nodup ∧
    (∀ month year c, resolve month year = some c →
      ((month = "April" ∧ year = 2026 ∧ c = "su26_m1") ∨
       (month = "May" ∧ year = 2026 ∧ c = "su26_m2") ∨
       (month = "June" ∧ year = 2026 ∧ c = "su26_m3") ∨
       (month = "July" ∧ year = 2026 ∧ c = "fal26_m1") ∨
       (month = "August" ∧ year = 2026 ∧ c = "fal26_m2") ∨
       (month = "September" ∧ year = 2026 ∧ c = "fal26_m3"))) := by
  refine ⟨by decide, by decide, by decide, ?_⟩
  intro month year c h
  have hmem := lookup_mem_pairs _ c month_column_map h
  simp only [month_column_map, List.mem_cons, List.not_mem_nil, or_false,
    Prod.mk.injEq] at hmem
  rcases hmem with ⟨hk, hc⟩ | ⟨hk, hc⟩ | ⟨hk, hc⟩ | ⟨hk, hc⟩ | ⟨hk, hc⟩ | ⟨hk, hc⟩
  · have := formatKey_inj month year "April" 2026 (by rw [hk]; decide)
    exact Or.inl ⟨this.1, this.2, hc⟩
  · have := formatKey_inj month year "May" 2026 (by rw [hk]; decide)
    exact Or.inr (Or.inl ⟨this.1, this.2, hc⟩)
  · have := formatKey_inj month year "June" 2026 (by rw [hk]; decide)
    exact Or.inr (Or.inr (Or.inl ⟨this.1, this.2, hc⟩))
  · have := formatKey_inj month year "July" 2026 (by rw [hk]; decide)
    exact Or.inr (Or.inr (Or.inr (Or.inl ⟨this.1, this.2, hc⟩)))
  · have := formatKey_inj month year "August" 2026 (by rw [hk]; decide)
    exact Or.inr (Or.inr (Or.inr (Or.inr (Or.inl ⟨this.1, this.2, hc⟩))))
  · have := formatKey_inj month year "September" 2026 (by rw [hk]; decide)
    exact Or.inr (Or.inr (Or.inr (Or.inr (Or.inr ⟨this.1, this.2, hc⟩))))

/-- C6 witness: the resolver applied at the April 2026 pair. -/
theorem claim_C6_witness : resolve "April" 2026 = some "su26_m1" :=
  claim_C6.1.1

/-! ## C8: the normalizer is idempotent -/

/-- A pointwise-identity map is the identity. -/
theorem map_eq_self_of (f : Char → Char) (l : List Char)
    (h : ∀ c ∈ l, f c = c) : l.map f = l := by
  induction l with
  | nil => rfl
  | cons x r ih =>
    rw [List.map_cons, h x (List.mem_cons_self _ _),
      ih (fun c hc => h c (List.mem_cons_of_mem _ hc))]

/-- dropWhile is the identity when no element satisfies the predicate. -/
theorem dropWhile_eq_self_of_all (p : Char → Bool) (l : List Char)
    (h : ∀ c ∈ l, p c = false) : l.dropWhile p = l := by
  cases l with
  | nil => rfl
  | cons x r => simp [List.dropWhile_cons, h x (List.mem_cons_self x r)]

/-- rdropWhile is the identity when no element satisfies the predicate. -/
theorem rdropWhile_eq_self_of_all (p : Char → Bool) (l : List Char)
    (h : ∀ c ∈ l, p c = false) : l.rdropWhile p = l := by
  unfold List.rdropWhile
  rw [dropWhile_eq_self_of_all p l.reverse
    (fun c hc => h c (List.mem_reverse.mp hc)), List.reverse_reverse]

/-- Characters of the collapse are alphanumeric or underscore. -/
theorem collapse_chars_aux (n : Nat) :
    ∀ l : List Char, l.length ≤ n → ∀ c ∈ collapseNonAlnum l,
      isAlnumL c = true ∨ c = '_' := by
  induction n with
  | zero =>
    intro l hl c hc
    have hnil : l = [] := List.eq_nil_of_length_eq_zero (by omega)
    subst hnil
    simp [collapseNonAlnum] at hc
  | succ n ih =>
    intro l hl c hc
    cases l with
    | nil => simp [collapseNonAlnum] at hc
    | cons x r =>
      rw [collapseNonAlnum] at hc
      split at hc
      · rename_i hx
        rcases List.mem_cons.mp hc with rfl | hmem
        · exact Or.inl hx
        · exact ih r (by simpa using hl) c hmem
      · rcases List.mem_cons.mp hc with rfl | hmem
        · exact Or.inr rfl
        · have hlen : (r.dropWhile (fun x => !isAlnumL x)).length ≤ n :=
            le_trans ((List.dropWhile_sublist _).length_le) (by simpa using hl)
          exact ih _ hlen c hmem

/-- Characters of the collapse are alphanumeric or underscore. -/
theorem collapse_chars (l : List Char) :
    ∀ c ∈ collapseNonAlnum l, isAlnumL c = true ∨ c = '_' :=
  collapse_chars_aux l.length l le_rfl

/-- The head of a dropWhile result fails the predicate. -/
theorem dropWhile_head_false (p : Char → Bool) (l : List Char) :
    ∀ x xs, l.dropWhile p = x :: xs → p x = false := by
  induction l with
  | nil => intro x xs h; simp at h
  | cons a r ih =>
    intro x xs h
    rw [List.dropWhile_cons] at h
    by_cases ha : p a = true
    · rw [if_pos ha] at h
      exact ih x xs h
    · rw [if_neg ha] at h
      cases h
      exact Bool.eq_false_iff.mpr ha

/-- Collapse keeps an alphanumeric head. -/
theorem collapse_cons_alnum (c : Char) (l : List Char) (h : isAlnumL c = true) :
    collapseNonAlnum (c :: l) = c :: collapseNonAlnum l := by
  rw [collapseNonAlnum, if_pos h]

/-- The collapse never produces two adjacent underscores. -/
theorem collapse_noAdj_aux (n : Nat) :
    ∀ l : List Char, l.length ≤ n → noAdjUnd (collapseNonAlnum l) := by
  induction n with
  | zero =>
    intro l hl
    have hnil : l = [] := List.eq_nil_of_length_eq_zero (by omega)
    subst hnil
    simp [collapseNonAlnum, noAdjUnd]
  | succ n ih =>
    intro l hl
    cases l with
    | nil => simp [collapseNonAlnum, noAdjUnd]
    | cons x r =>
      unfold noAdjUnd
      rw [collapseNonAlnum]
      split
      · rename_i hx
        apply List.Chain'.cons' (ih r (by simpa using hl))
        intro y _ hcon
        rw [hcon.1] at hx
        exact absurd hx (by decide)
      · apply List.Chain'.cons'
          (ih _ (le_trans ((List.dropWhile_sublist _).length_le) (by simpa using hl)))
        intro y hy hcon
        cases hd : r.dropWhile (fun x => !isAlnumL x) with
        | nil =>
          rw [hd] at hy
          simp [collapseNonAlnum] at hy
        | cons d ds =>
          have hda : isAlnumL d = true := by
            have := dropWhile_head_false (fun x => !isAlnumL x) r d ds hd
            simpa using this
          rw [hd, collapse_cons_alnum d ds hda] at hy
          simp only [List.head?_cons, Option.mem_some_iff] at hy
          rw [hcon.2] at hy
          rw [hy] at hda
          exact absurd hda (by decide)

/-- The collapse never produces two adjacent underscores. -/
theorem collapse_noAdj (l : List Char) : noAdjUnd (collapseNonAlnum l) :=
  collapse_noAdj_aux l.length l le_rfl

/-- Collapse is the identity on lists that are already in collapsed
shape: only alphanumerics and single underscores. -/
theorem collapse_id (l : List Char)
    (h1 : ∀ c ∈ l, isAlnumL c = true ∨ c = '_')
    (h2 : noAdjUnd l) : collapseNonAlnum l = l := by
  induction l with
  | nil => simp [collapseNonAlnum]
  | cons x r ih =>
    by_cases hx : isAlnumL x = true
    · rw [collapse_cons_alnum x r hx]
      rw [ih (fun c hc => h1 c (List.mem_cons_of_mem _ hc)) (List.Chain'.tail h2)]
    · have hx' : x = '_' := (h1 x (List.mem_cons_self _ _)).resolve_left hx
      subst hx'
      rw [collapseNonAlnum, if_neg (by decide)]
      cases r with
      | nil => simp [collapseNonAlnum]
      | cons b rs =>
        have hb : b ≠ '_' := by
          have hcc := List.chain'_cons.mp h2
          intro hb'
          exact hcc.1 ⟨rfl, hb'⟩
        have hba : isAlnumL b = true :=
          (h1 b (List.mem_cons_of_mem _ (List.mem_cons_self _ _))).resolve_right hb
        have hdrop : (b :: rs).dropWhile (fun x => !isAlnumL x) = b :: rs := by
          rw [List.dropWhile_cons]
          simp [hba]
        rw [hdrop,
          ih (fun c hc => h1 c (List.mem_cons_of_mem _ hc)) (List.Chain'.tail h2)]

/-- Every character of the underscore-stripped list is in the list. -/
theorem stripUnd_subset (l : List Char) : ∀ c ∈ stripUnd l, c ∈ l := by
  intro c hc
  unfold stripUnd at hc
  have hp : (l.dropWhile isUnd).rdropWhile isUnd <+: l.dropWhile isUnd :=
    List.rdropWhile_prefix _ _
  exact (List.dropWhile_sublist _).subset (hp.sublist.subset hc)

/-- Underscore-stripping keeps the no-adjacent-underscores shape. -/
theorem stripUnd_noAdj (l : List Char) (h : noAdjUnd l) : noAdjUnd (stripUnd l) := by
  unfold stripUnd
  have h1 : noAdjUnd (l.dropWhile isUnd) := by
    obtain ⟨t, ht⟩ := List.dropWhile_suffix (l := l) isUnd
    unfold noAdjUnd at h ⊢
    rw [← ht] at h
    exact (List.chain'_append.mp h).2.1
  obtain ⟨t, ht⟩ := List.rdropWhile_prefix isUnd (l.dropWhile isUnd)
  unfold noAdjUnd at h1 ⊢
  rw [← ht] at h1
  exact (List.chain'_append.mp h1).1

/-- Underscore-stripping twice equals stripping once. -/
theorem stripUnd_idem (l : List Char) : stripUnd (stripUnd l) = stripUnd l := by
  unfold stripUnd
  have hd : ((l.dropWhile isUnd).rdropWhile isUnd).dropWhile isUnd =
      (l.dropWhile isUnd).rdropWhile isUnd := by
    cases hout : (l.dropWhile isUnd).rdropWhile isUnd with
    | nil => rfl
    | cons o os =>
      have hpre : (l.dropWhile isUnd).rdropWhile isUnd <+: l.dropWhile isUnd :=
        List.rdropWhile_prefix _ _
      rw [hout] at hpre
      obtain ⟨t, ht⟩ := hpre
      have hAd : (l.dropWhile isUnd).dropWhile isUnd = l.dropWhile isUnd :=
        List.dropWhile_idempotent _ _
      rw [← ht, List.cons_append, List.dropWhile_cons] at hAd
      have ho : isUnd o = false := by
        by_contra hco
        have ho' : isUnd o = true := by simpa using hco
        rw [if_pos ho'] at hAd
        have hlen := congrArg List.length hAd
        have hle := (List.dropWhile_sublist (l := os ++ t) isUnd).length_le
        rw [List.length_cons, List.length_append] at hlen
        rw [List.length_append] at hle
        omega
      rw [List.dropWhile_cons, ho]
      simp
  rw [hd, List.rdropWhile_idempotent]

/-- Lowering is the identity on lower-case alphanumerics and the
underscore. -/
theorem toLower_eq_self (c : Char) (h : isAlnumL c = true ∨ c = '_') :
    Char.toLower c = c := by
  simp only [Char.toLower]
  split
  · rename_i hc
    exfalso
    rcases h with h | h
    · simp only [isAlnumL, decide_eq_true_eq] at h
      omega
    · subst h
      have h95 : ('_' : Char).toNat = 95 := rfl
      omega
  · rfl

/-- C8: the column normalizer is idempotent, both on a single header
string and column-wise on a whole header list: applying
canonicalize_columns twice yields the same keys as applying it once. -/
theorem claim_C8 :
    (∀ s : String, canonicalize_header (canonicalize_header s) = canonicalize_header s) ∧
      (∀ cols : List String,
        canonicalize_columns (canonicalize_columns cols) = canonicalize_columns cols) := by
  have hmain : ∀ s : String,
      canonicalize_header (canonicalize_header s) = canonicalize_header s := by
    intro s
    unfold canonicalize_header
    rw [List.toList_asString]
    set M := collapseNonAlnum (((pyStripL s.toList).map nbspFix).map Char.toLower) with hM
    set out := stripUnd M with hout
    have hchars : ∀ c ∈ out, isAlnumL c = true ∨ c = '_' := fun c hc =>
      collapse_chars _ c (stripUnd_subset M c hc)
    have hsp : ∀ c ∈ out, pySpace c = false := by
      intro c hc
      rcases hchars c hc with h | h
      · simp only [isAlnumL, decide_eq_true_eq] at h
        simp only [pySpace, decide_eq_false_iff_not]
        omega
      · subst h
        decide
    have h1 : pyStripL out = out := by
      unfold pyStripL
      rw [dropWhile_eq_self_of_all _ _ hsp]
      exact rdropWhile_eq_self_of_all _ _ hsp
    rw [h1]
    have h2 : out.map nbspFix = out := by
      apply map_eq_self_of
      intro c hc
      unfold nbspFix
      rcases hchars c hc with h | h
      · simp only [isAlnumL, decide_eq_true_eq] at h
        rw [if_neg (by omega)]
      · subst h
        decide
    rw [h2]
    have h3 : out.map Char.toLower = out :=
      map_eq_self_of _ _ (fun c hc => toLower_eq_self c (hchars c hc))
    rw [h3]
    have h4 : collapseNonAlnum out = out :=
      collapse_id out hchars (stripUnd_noAdj M (collapse_noAdj _))
    rw [h4, hout, stripUnd_idem]
  refine ⟨hmain, ?_⟩
  intro cols
  unfold canonicalize_columns
  rw [List.map_map]
  exact List.map_congr_left (fun a _ => hmain a)
